import Mathlib

/-!
Verification of the invoice-PDF layout engine (Express + pdf-lib service).

The JavaScript source is shallowly embedded as follows:
* JS strings are `List Char`; `String.prototype.split(c)` is `splitOnChar c`,
  and the truthiness test `s.trim()` is `!(trimmedEmpty s)` (a string whose
  trim is empty is exactly a string of whitespace characters).
* JS numbers are `ℚ` (the invoice arithmetic is plain sums, products and
  fixed-point formatting; no float-specific behaviour is claimed).
* `font.widthOfTextAtSize(text, size)` is an abstract function
  `Font = List Char → ℚ → ℚ` supplied by the caller.
* pdf-lib drawing calls (`drawText`, `drawLine`, `drawRectangle`,
  `drawImage`) become constructors of an instruction type `Instr`; each
  section composer returns the emitted instruction list in source order
  together with the bottom cursor it returns in JS.  Colour (always black)
  and the pdf-lib `maxWidth` clipping option of `drawText` carry no layout
  information and are not recorded.
-/

namespace Invoice

/-! ### Character-list string operations (JS `split` / `trim` semantics) -/

/-- JS `String.prototype.split(sep)` for a one-character separator: splits at
every occurrence and keeps empty pieces, so the result is always nonempty
(`''.split(c) == ['']`). -/
def splitOnChar (sep : Char) : List Char → List (List Char)
  | [] => [[]]
  | c :: cs =>
    match splitOnChar sep cs with
    | [] => [[]]
    | w :: ws => if c = sep then [] :: w :: ws else (c :: w) :: ws

/-- The truthiness test `!s.trim()` of JS: `s.trim()` is the empty string
exactly when every character of `s` is whitespace.  (JS trims a few more
exotic code points than `Char.isWhitespace`; the source only ever feeds
ASCII text through this test.) -/
def trimmedEmpty (s : List Char) : Bool := s.all Char.isWhitespace

/-- Joining a list of words with single spaces; the shape every line built
by the wrapper has. -/
def joinWords : List (List Char) → List Char
  | [] => []
  | [w] => w
  | w :: ws => w ++ ' ' :: joinWords ws

/-! ### Layout constants (source lines 21-43) -/

def A4_WIDTH : ℚ := 595.28
def A4_HEIGHT : ℚ := 841.89
def MARGIN : ℚ := 24
def BORDER_WIDTH : ℚ := 0.4
def META_TABLE_WIDTH : ℚ := 230
def META_GAP : ℚ := 10

def getContentWidth : ℚ := A4_WIDTH - MARGIN * 2

structure LayoutDimensions where
  contentWidth : ℚ
  leftX : ℚ
  leftWidth : ℚ
  rightWidth : ℚ
  rightX : ℚ
  gap : ℚ

def getLayoutDimensions : LayoutDimensions :=
  let contentWidth := getContentWidth
  let leftWidth := contentWidth - META_TABLE_WIDTH - META_GAP
  let leftX := MARGIN
  { contentWidth := contentWidth
    leftX := leftX
    leftWidth := leftWidth
    rightWidth := META_TABLE_WIDTH
    rightX := leftX + leftWidth + META_GAP
    gap := META_GAP }

/-! ### Text wrapper (source lines 46-77) -/

/-- `font.widthOfTextAtSize(text, fontSize)`: an abstract width measure. -/
def Font : Type := List Char → ℚ → ℚ

/-- One iteration of the `for (const word of words)` loop of `wrapText`:
state is `(lines, currentLine)`.  `meas` is
`s ↦ font.widthOfTextAtSize(s, fontSize)`. -/
def wrapStep (meas : List Char → ℚ) (maxWidth : ℚ)
    (st : List (List Char) × List Char) (word : List Char) :
    List (List Char) × List Char :=
  let testLine := if st.2 = [] then word else st.2 ++ ' ' :: word
  if trimmedEmpty testLine then st
  else if maxWidth < meas testLine ∧ st.2 ≠ [] then (st.1 ++ [st.2], word)
  else (st.1, testLine)

/-- The per-paragraph body of `wrapText`: split on spaces, run the word
loop, flush the pending line if nonempty. -/
def wrapParagraph (meas : List Char → ℚ) (maxWidth : ℚ)
    (paragraph : List Char) : List (List Char) :=
  let words := splitOnChar ' ' paragraph
  let r := words.foldl (wrapStep meas maxWidth) ([], [])
  if r.2 = [] then r.1 else r.1 ++ [r.2]

/-- `wrapText(text, maxWidth, font, fontSize)` (source lines 46-77): split
on explicit line breaks, wrap each paragraph, concatenate; if nothing was
produced return a single empty line. -/
def wrapText (text : List Char) (maxWidth : ℚ) (font : Font) (fontSize : ℚ) :
    List (List Char) :=
  let allLines := (splitOnChar '\n' text).flatMap
    (wrapParagraph (fun s => font s fontSize) maxWidth)
  if allLines = [] then [[]] else allLines

/-- `getTextWidth(text, font, fontSize)` (source line 80). -/
def getTextWidth (text : List Char) (font : Font) (fontSize : ℚ) : ℚ :=
  font text fontSize

/-- `centerTextX(text, x, width, font, fontSize)` (source lines 83-86). -/
def centerTextX (text : List Char) (x width : ℚ) (font : Font)
    (fontSize : ℚ) : ℚ :=
  x + (width - getTextWidth text font fontSize) / 2

/-! ### Data model (shape of `createInvoiceData()` and the accesses the
source performs on it) -/

structure Company where
  name : List Char
  brand : List Char
  address : List Char
  state : List Char
  stateCode : List Char
  gstin : List Char
  contact : List Char

structure Party where
  name : List Char
  contact : List Char
  state : List Char
  stateCode : List Char
  addressLine : List Char

/-- A line item; `hsn` is the optional per-item override read at source
line 629 (`item.hsn || invoice.hsn || ''`). -/
structure LineItem where
  description : List Char
  quantity : ℚ
  rate : ℚ
  unit : List Char
  hsn : Option (List Char) := none

/-- The members of `invoice.taxRates`; either may be absent
(`invoice.taxRates?.cgst || 0`). -/
structure TaxRates where
  cgst : Option ℚ
  sgst : Option ℚ

structure InvoiceData where
  number : List Char
  issueDate : List Char
  dueDate : List Char
  terms : List Char
  reference : List Char
  otherReference : List Char
  paymentMode : List Char
  consignee : Party
  buyer : Party
  hsn : List Char
  items : List LineItem
  taxRates : Option TaxRates
  roundOff : Option ℚ
  amountInWords : List Char
  taxAmountInWords : List Char
  remarks : List Char
  declaration : List Char

structure Bank where
  name : List Char
  accountNumber : List Char
  ifsc : List Char
  branch : List Char

structure Fonts where
  normal : Font
  bold : Font

/-! ### Totals calculator and currency formatting (source lines 994-1006) -/

structure Totals where
  baseAmount : ℚ
  cgstAmount : ℚ
  sgstAmount : ℚ
  taxTotal : ℚ
  roundOff : ℚ
  grandTotal : ℚ
  deriving DecidableEq

/-- `invoice.taxRates?.cgst || 0` (source line 996). -/
def effCgst (invoice : InvoiceData) : ℚ :=
  (invoice.taxRates.bind TaxRates.cgst).getD 0

/-- `invoice.taxRates?.sgst || 0` (source line 997). -/
def effSgst (invoice : InvoiceData) : ℚ :=
  (invoice.taxRates.bind TaxRates.sgst).getD 0

/-- `computeTotals(invoice)` (source lines 994-1002). -/
def computeTotals (invoice : InvoiceData) : Totals :=
  let baseAmount :=
    invoice.items.foldl (fun sum item => sum + item.quantity * item.rate) 0
  let cgstAmount := baseAmount * effCgst invoice
  let sgstAmount := baseAmount * effSgst invoice
  let taxTotal := cgstAmount + sgstAmount
  let roundOff := invoice.roundOff.getD 0
  let grandTotal := baseAmount + taxTotal + roundOff
  { baseAmount := baseAmount
    cgstAmount := cgstAmount
    sgstAmount := sgstAmount
    taxTotal := taxTotal
    roundOff := roundOff
    grandTotal := grandTotal }

/-- Decimal digits of a natural number. -/
def natToChars (n : ℕ) : List Char := (Nat.repr n).data

/-- JS `Number.prototype.toFixed(dp)` on the exact rational value: round to
`dp` decimal places, half away from zero, and print with exactly `dp`
digits after the point. -/
def ratToFixed (dp : ℕ) (q : ℚ) : List Char :=
  let scaled : ℚ := q * (10 : ℚ) ^ dp
  let n : ℤ := if scaled < 0 then -⌊-scaled + 1/2⌋ else ⌊scaled + 1/2⌋
  let m : ℕ := n.natAbs
  let intPart : ℕ := m / 10 ^ dp
  let fracPart : ℕ := m % 10 ^ dp
  let fracDigits : List Char := natToChars fracPart
  let fracPadded : List Char :=
    List.replicate (dp - fracDigits.length) '0' ++ fracDigits
  (if n < 0 then ['-'] else []) ++ natToChars intPart ++
    (if dp = 0 then [] else '.' :: fracPadded)

/-- `formatCurrency(amount)` (source lines 1004-1006). -/
def formatCurrency (amount : ℚ) : List Char :=
  "Rs ".data ++ ratToFixed 2 amount

/-- Decimal-style rendering of a rational used where JS stringifies a
number outside `toFixed` (`item.quantity?.toString() || ''`, source line
631).  On integers it agrees with JS `toString`; a non-integer is rendered
as a fraction (only the text content of one drawn string depends on it). -/
def ratToStr (q : ℚ) : List Char :=
  (if q < 0 then ['-'] else []) ++ natToChars q.num.natAbs ++
    (if q.den = 1 then [] else '/' :: natToChars q.den)

/-! ### Drawing instructions

Each pdf-lib call made by a section composer is recorded as one
instruction, in source order.  Coordinates are the exact arguments the
source passes (already converted to the bottom-left origin via
`A4_HEIGHT - y`). -/

inductive Instr where
  | rect (x y width height : ℚ)
  | line (x1 y1 x2 y2 : ℚ)
  | text (s : List Char) (x y size : ℚ) (bold : Bool)
  | image (x y width height : ℚ)
  deriving DecidableEq

/-- A decoded image handle with known pixel dimensions. -/
structure ImageHandle where
  width : ℚ
  height : ℚ

/-! ### Section composers

Each takes the starting cursor (top-down offset from the page top) and
returns `(emitted instructions, bottom cursor)` exactly as the JS function
draws and returns. -/

/-- `drawCompanyHeader(page, company, top, fonts, logoImage)` (source
lines 283-347). -/
def drawCompanyHeader (company : Company) (top : ℚ) (fonts : Fonts)
    (logoImage : Option ImageHandle) : List Instr × ℚ :=
  let L := getLayoutDimensions
  let textX0 := L.leftX + 8
  let logoPart : List Instr × ℚ × ℚ :=
    match logoImage with
    | none => ([], textX0, top)
    | some img =>
      let logoWidth : ℚ := 88
      let s := logoWidth / img.width
      let dimsW := img.width * s
      let dimsH := img.height * s
      let logoTop := top + 6
      ([Instr.image textX0 (A4_HEIGHT - logoTop - dimsH) dimsW dimsH],
        textX0 + logoWidth + 8, logoTop + dimsH + 4)
  let textX := logoPart.2.1
  let logoBottom := logoPart.2.2
  let textWidth := L.leftWidth - (textX - L.leftX) - 8
  let safeTextWidth := min textWidth 205
  let lineSpacing : ℚ := 12
  let paragraphSpacing : ℚ := 2
  let nameInstr := Instr.text company.name textX (A4_HEIGHT - (top + 6)) 11 true
  let lines : List (List Char) :=
    [company.address,
     "State: ".data ++ company.state ++ ", Code : ".data ++ company.stateCode,
     "GSTIN/UIN : ".data ++ company.gstin,
     "Contact : ".data ++ company.contact]
  let step := fun (acc : List Instr × ℚ) (line : List Char) =>
    let wrapped := wrapText line safeTextWidth fonts.normal 9
    let instrs := wrapped.enum.map fun p =>
      Instr.text p.2 textX (A4_HEIGHT - (acc.2 + (p.1 : ℚ) * lineSpacing)) 9 false
    (acc.1 ++ instrs, acc.2 + (wrapped.length : ℚ) * lineSpacing + paragraphSpacing)
  let body := lines.foldl step ([], top + 6 + 14)
  (logoPart.1 ++ nameInstr :: body.1, max body.2 logoBottom)

/-- `drawInvoiceMetaTable(page, invoice, top, fonts)` (source lines
349-422). -/
def drawInvoiceMetaTable (invoice : InvoiceData) (top : ℚ) (fonts : Fonts) :
    List Instr × ℚ :=
  let L := getLayoutDimensions
  let tableWidth := L.rightWidth
  let x := L.rightX
  let y := top
  let rowHeight : ℚ := 24
  let rows : List (List Char × List Char) :=
    [("Invoice No.".data, invoice.number),
     ("Dated".data, invoice.issueDate),
     ("Mode/Terms of Payment".data, invoice.paymentMode),
     ("Supplier".data ++ '\'' :: "s Ref.".data, invoice.reference),
     ("Other Reference".data,
       if invoice.otherReference = [] then "-".data else invoice.otherReference),
     ("Terms of Delivery".data, invoice.terms)]
  let tableHeight := (rows.length : ℚ) * rowHeight
  let frame := Instr.rect x (A4_HEIGHT - (y + tableHeight)) tableWidth tableHeight
  let separatorX := x + tableWidth * 0.45
  let rowInstrs := rows.enum.flatMap fun p =>
    let rowY := y + (p.1 : ℚ) * rowHeight
    (if p.1 ≠ 0 then
      [Instr.line x (A4_HEIGHT - rowY) (x + tableWidth) (A4_HEIGHT - rowY)]
     else []) ++
    [Instr.line separatorX (A4_HEIGHT - rowY) separatorX (A4_HEIGHT - (rowY + rowHeight)),
     Instr.text p.2.1 (x + 6) (A4_HEIGHT - (rowY + 8)) 9 true,
     Instr.text p.2.2 (separatorX + 6) (A4_HEIGHT - (rowY + 8)) 9 false]
  (frame :: rowInstrs, y + (rows.length : ℚ) * rowHeight)

/-- `drawPartyBox(page, label, party, x, y, width, height, fonts, options)`
(source lines 478-517). -/
def drawPartyBox (label : List Char) (party : Party) (x y width height : ℚ)
    (drawBorder : Bool) : List Instr :=
  (if drawBorder then [Instr.rect x (A4_HEIGHT - (y + height)) width height]
   else []) ++
  [Instr.text label (x + 8) (A4_HEIGHT - (y + 10)) 10 true,
   Instr.text (party.name ++ " (".data ++ party.contact ++ ")".data)
     (x + 8) (A4_HEIGHT - (y + 26)) 9 false,
   Instr.text ("State Name : ".data ++ party.state ++ ", Code : ".data ++ party.stateCode)
     (x + 8) (A4_HEIGHT - (y + 40)) 9 false]

/-- `drawTermsBox(page, terms, x, y, width, height, fonts, options)`
(source lines 519-550). -/
def drawTermsBox (terms : List Char) (x y width height : ℚ)
    (drawBorder : Bool) : List Instr :=
  (if drawBorder then [Instr.rect x (A4_HEIGHT - (y + height)) width height]
   else []) ++
  [Instr.text "Terms of Delivery".data (x + 8) (A4_HEIGHT - (y + 10)) 10 true,
   Instr.text terms (x + 8) (A4_HEIGHT - (y + 26)) 10 true]

/-- `drawPartyBlocks(page, invoice, top, fonts)` (source lines 424-476). -/
def drawPartyBlocks (invoice : InvoiceData) (top : ℚ) (fonts : Fonts) :
    List Instr × ℚ :=
  let rowHeight : ℚ := 82
  let rows : ℚ := 2
  let contentWidth := getContentWidth
  let leftX := MARGIN
  let totalHeight := rowHeight * rows
  let termsWidth := META_TABLE_WIDTH
  let consigneeWidth := contentWidth - termsWidth
  let termsX := leftX + consigneeWidth
  let frame := Instr.rect leftX (A4_HEIGHT - (top + totalHeight)) contentWidth totalHeight
  let vdiv := Instr.line termsX (A4_HEIGHT - top) termsX (A4_HEIGHT - (top + totalHeight))
  let hdiv := Instr.line leftX (A4_HEIGHT - (top + rowHeight)) termsX (A4_HEIGHT - (top + rowHeight))
  let buyerTop := top + rowHeight
  (frame :: vdiv :: hdiv ::
    (drawPartyBox "Consignee".data invoice.consignee leftX top consigneeWidth rowHeight false ++
     drawTermsBox invoice.terms termsX top termsWidth rowHeight false ++
     drawPartyBox "Buyer".data invoice.buyer leftX buyerTop contentWidth rowHeight false),
   buyerTop + rowHeight)

/-- The `columnWidths.reduce` computing each column's left x (source lines
558-562 and 727-731): position 0 is `x`, position `i` is position `i-1`
plus width `i-1`. -/
def columnPositions (x : ℚ) (widths : List ℚ) : List ℚ :=
  widths.dropLast.scanl (fun p w => p + w) x

/-- `drawItemsSection(page, invoice, totals, startY, fonts)` (source lines
552-690).  Note the source builds the detail area from `invoice.items[0]`
only (line 578), with the default `{description:'', quantity:0, rate:0,
unit:''}` when the list is empty, and hard-codes the serial number `'1'`. -/
def drawItemsSection (invoice : InvoiceData) (totals : Totals) (startY : ℚ)
    (fonts : Fonts) : List Instr × ℚ :=
  let x := MARGIN
  let width := getContentWidth
  let headerTop := startY
  let columnWidths : List ℚ := [30, 225, 55, 45, 65, 22, 85]
  let columnX := columnPositions x columnWidths
  let colX := fun i => columnX.getD i 0
  let colW := fun i => columnWidths.getD i 0
  let headerHeight : ℚ := 26
  let headers : List (List Char) :=
    ["Sl No.".data, "Description of Goods".data, "HSN/SAC".data,
     "Quantity".data, "Rate".data, "per".data, "Amount".data]
  let headerInstrs := headers.enum.map fun p =>
    Instr.text p.2 (colX p.1 + (colW p.1 - getTextWidth p.2 fonts.bold 9) / 2)
      (A4_HEIGHT - (headerTop + 10)) 9 true
  let item := invoice.items.headD
    { description := [], quantity := 0, rate := 0, unit := [] }
  let descMaxWidth := colW 1 - 8
  let descWrapped := wrapText item.description descMaxWidth fonts.bold 10
  let lineHeight : ℚ := 15
  let smallLines : List (List Char × ℚ) :=
    [("Output Cgst UP".data, totals.cgstAmount),
     ("Output Sgst UP".data, totals.sgstAmount),
     ("Round Off".data, totals.roundOff)]
  let primaryBlockHeight := lineHeight + 8
  let descBlockHeight := (descWrapped.length : ℚ) * lineHeight
  let smallBlockHeight := (smallLines.length : ℚ) * lineHeight + 8
  let detailRowHeight := primaryBlockHeight + descBlockHeight + smallBlockHeight + 12
  let detailTop := headerTop + headerHeight
  let totalRowHeight : ℚ := 20
  let totalRowTop := detailTop + detailRowHeight
  let tableHeight := headerHeight + detailRowHeight + totalRowHeight
  let frame := Instr.rect x (A4_HEIGHT - (headerTop + tableHeight)) width tableHeight
  let vlines := (List.range 6).map fun i =>
    Instr.line (colX (i + 1)) (A4_HEIGHT - headerTop)
      (colX (i + 1)) (A4_HEIGHT - (headerTop + tableHeight))
  let hline1 := Instr.line x (A4_HEIGHT - (headerTop + headerHeight))
    (x + width) (A4_HEIGHT - (headerTop + headerHeight))
  let hline2 := Instr.line x (A4_HEIGHT - (detailTop + detailRowHeight))
    (x + width) (A4_HEIGHT - (detailTop + detailRowHeight))
  let primaryY := detailTop + 8
  let one := "1".data
  let slNo := Instr.text one
    (colX 0 + (colW 0 - getTextWidth one fonts.normal 9) / 2)
    (A4_HEIGHT - primaryY) 9 false
  let hsnText := if (item.hsn.getD []) = [] then invoice.hsn else item.hsn.getD []
  let hsnInstr := Instr.text hsnText (colX 2 + 4) (A4_HEIGHT - primaryY) 9 false
  let qtyInstr := Instr.text (ratToStr item.quantity) (colX 3 + 4)
    (A4_HEIGHT - primaryY) 9 false
  let rateText := formatCurrency item.rate
  let rateInstr := Instr.text rateText
    (colX 4 + colW 4 - 4 - getTextWidth rateText fonts.normal 9)
    (A4_HEIGHT - primaryY) 9 false
  let unitInstr := Instr.text item.unit (colX 5 + 4) (A4_HEIGHT - primaryY) 9 false
  let descStartY := primaryY + lineHeight
  let descInstrs := descWrapped.enum.map fun p =>
    Instr.text p.2 (colX 1 + 4)
      (A4_HEIGHT - (descStartY + (p.1 : ℚ) * lineHeight)) 10 true
  let afterDescY := descStartY + (descWrapped.length : ℚ) * lineHeight + 6
  let smallInstrs := smallLines.enum.flatMap fun p =>
    let lineY := afterDescY + (p.1 : ℚ) * lineHeight
    let amountText := formatCurrency p.2.2
    [Instr.text p.2.1 (colX 1 + 4) (A4_HEIGHT - lineY) 9 false,
     Instr.text amountText
       (colX 6 + colW 6 - 4 - getTextWidth amountText fonts.normal 9)
       (A4_HEIGHT - lineY) 9 false]
  let totalInstr := Instr.text "Total".data (colX 1 + 6)
    (A4_HEIGHT - (totalRowTop + 8)) 9 true
  let grandTotalText := formatCurrency totals.grandTotal
  let grandInstr := Instr.text grandTotalText
    (colX 6 + colW 6 - 6 - getTextWidth grandTotalText fonts.bold 10)
    (A4_HEIGHT - (totalRowTop + 8)) 10 true
  let eoeText := "E. & O.E".data
  let eoeInstr := Instr.text eoeText
    (colX 6 + colW 6 - 6 - getTextWidth eoeText fonts.normal 8)
    (A4_HEIGHT - (totalRowTop + 16)) 8 false
  (headerInstrs ++ frame :: vlines ++ hline1 :: hline2 :: slNo :: hsnInstr ::
     qtyInstr :: rateInstr :: unitInstr :: descInstrs ++ smallInstrs ++
     [totalInstr, grandInstr, eoeInstr],
   totalRowTop + totalRowHeight)

/-- `drawAmountSummaries(page, invoice, startY, fonts)` (source lines
692-720). -/
def drawAmountSummaries (invoice : InvoiceData) (startY : ℚ) (fonts : Fonts) :
    List Instr × ℚ :=
  let x := MARGIN
  let width := getContentWidth
  let label := Instr.text "Amount Chargeable (in words):".data x
    (A4_HEIGHT - startY) 10 true
  let wordsLines := wrapText invoice.amountInWords (width - 210) fonts.normal 9
  let wordInstrs := wordsLines.enum.map fun p =>
    Instr.text p.2 (x + 200) (A4_HEIGHT - (startY + (p.1 : ℚ) * 11)) 9 false
  (label :: wordInstrs, startY + max 14 ((wordsLines.length : ℚ) * 11))

/-- `drawTaxBreakup(page, invoice, totals, startY, fonts)` (source lines
722-831). -/
def drawTaxBreakup (invoice : InvoiceData) (totals : Totals) (startY : ℚ)
    (fonts : Fonts) : List Instr × ℚ :=
  let x := MARGIN
  let tableTop := startY
  let columnWidths : List ℚ := [70, 110, 70, 70, 70, 70, 75]
  let tableWidth := columnWidths.foldl (fun sum v => sum + v) 0
  let columnX := columnPositions x columnWidths
  let colX := fun i => columnX.getD i 0
  let colW := fun i => columnWidths.getD i 0
  let rowHeight : ℚ := 24
  let rowsCount : ℚ := 3
  let tableHeight := rowHeight * rowsCount
  let frame := Instr.rect x (A4_HEIGHT - (tableTop + tableHeight)) tableWidth tableHeight
  let vlines := (List.range 6).map fun i =>
    Instr.line (colX (i + 1)) (A4_HEIGHT - tableTop)
      (colX (i + 1)) (A4_HEIGHT - (tableTop + tableHeight))
  let hline1 := Instr.line x (A4_HEIGHT - (tableTop + rowHeight))
    (x + tableWidth) (A4_HEIGHT - (tableTop + rowHeight))
  let hline2 := Instr.line x (A4_HEIGHT - (tableTop + rowHeight * 2))
    (x + tableWidth) (A4_HEIGHT - (tableTop + rowHeight * 2))
  let headers : List (List Char) :=
    ["HSN/SAC".data, "Taxable Value".data, "CGST Rate".data,
     "CGST Amount".data, "SGST/UTGST Rate".data, "SGST/UTGST Amount".data,
     "Total Tax Amount".data]
  let headerInstrs := headers.enum.map fun p =>
    Instr.text p.2 (colX p.1 + 6) (A4_HEIGHT - (tableTop + 10)) 9 true
  let dataRowTop := tableTop + rowHeight
  -- `(invoice.taxRates.cgst * 100).toFixed(0)` (source lines 772, 778,
  -- 795, 800): JS reads the field without optional chaining and would
  -- throw when `taxRates` is absent; the demo invoice always supplies it.
  -- Modelled with the defaulted access of `computeTotals`, which only
  -- affects this label's text.
  let cgstRateText := ratToFixed 0 (effCgst invoice * 100) ++ ['%']
  let sgstRateText := ratToFixed 0 (effSgst invoice * 100) ++ ['%']
  let taxableValueText := formatCurrency totals.baseAmount
  let cgstText := formatCurrency totals.cgstAmount
  let sgstText := formatCurrency totals.sgstAmount
  let totalTaxText := formatCurrency totals.taxTotal
  let dataInstrs := [
    Instr.text invoice.hsn (colX 0 + 6) (A4_HEIGHT - (dataRowTop + 10)) 9 false,
    Instr.text taxableValueText
      (colX 1 + colW 1 - 6 - getTextWidth taxableValueText fonts.normal 9)
      (A4_HEIGHT - (dataRowTop + 10)) 9 false,
    Instr.text cgstRateText (colX 2 + 6) (A4_HEIGHT - (dataRowTop + 10)) 9 false,
    Instr.text cgstText
      (colX 3 + colW 3 - 6 - getTextWidth cgstText fonts.normal 9)
      (A4_HEIGHT - (dataRowTop + 10)) 9 false,
    Instr.text sgstRateText (colX 4 + 6) (A4_HEIGHT - (dataRowTop + 10)) 9 false,
    Instr.text sgstText
      (colX 5 + colW 5 - 6 - getTextWidth sgstText fonts.normal 9)
      (A4_HEIGHT - (dataRowTop + 10)) 9 false,
    Instr.text totalTaxText
      (colX 6 + colW 6 - 6 - getTextWidth totalTaxText fonts.normal 9)
      (A4_HEIGHT - (dataRowTop + 10)) 9 false]
  let totalRowTop := dataRowTop + rowHeight
  let totalInstrs := [
    Instr.text "Total".data (colX 0 + 6) (A4_HEIGHT - (totalRowTop + 10)) 9 true,
    Instr.text taxableValueText
      (colX 1 + colW 1 - 6 - getTextWidth taxableValueText fonts.bold 9)
      (A4_HEIGHT - (totalRowTop + 10)) 9 true,
    Instr.text cgstRateText (colX 2 + 6) (A4_HEIGHT - (totalRowTop + 10)) 9 true,
    Instr.text cgstText
      (colX 3 + colW 3 - 6 - getTextWidth cgstText fonts.bold 9)
      (A4_HEIGHT - (totalRowTop + 10)) 9 true,
    Instr.text sgstRateText (colX 4 + 6) (A4_HEIGHT - (totalRowTop + 10)) 9 true,
    Instr.text sgstText
      (colX 5 + colW 5 - 6 - getTextWidth sgstText fonts.bold 9)
      (A4_HEIGHT - (totalRowTop + 10)) 9 true,
    Instr.text totalTaxText
      (colX 6 + colW 6 - 6 - getTextWidth totalTaxText fonts.bold 9)
      (A4_HEIGHT - (totalRowTop + 10)) 9 true]
  let taxWordsY := totalRowTop + rowHeight + 12
  let taxLabel := Instr.text "Tax Amount (in words):".data x
    (A4_HEIGHT - taxWordsY) 10 true
  let taxWordsLines := wrapText invoice.taxAmountInWords (getContentWidth - 170)
    fonts.normal 9
  let taxWordInstrs := taxWordsLines.enum.map fun p =>
    Instr.text p.2 (x + 170) (A4_HEIGHT - (taxWordsY + (p.1 : ℚ) * 11)) 9 false
  (frame :: vlines ++ hline1 :: hline2 :: headerInstrs ++ dataInstrs ++
     totalInstrs ++ taxLabel :: taxWordInstrs,
   taxWordsY + max 16 ((taxWordsLines.length : ℚ) * 11))

/-- `drawBankAndRemarks(page, invoice, bank, startY, fonts)` (source lines
833-936). -/
def drawBankAndRemarks (invoice : InvoiceData) (bank : Bank) (startY : ℚ)
    (fonts : Fonts) : List Instr × ℚ :=
  let x := MARGIN
  let width := getContentWidth
  let textAreaWidth := width / 2 - 10
  let bankX := x + textAreaWidth + 20
  let remarksLabel := Instr.text "Remarks:".data x (A4_HEIGHT - startY) 10 true
  let y1 := startY + 14
  let remarksLines := wrapText invoice.remarks textAreaWidth fonts.normal 9
  let remarksInstrs := remarksLines.enum.map fun p =>
    Instr.text p.2 x (A4_HEIGHT - (y1 + (p.1 : ℚ) * 12)) 9 false
  let y2 := y1 + (remarksLines.length : ℚ) * 12 + 10
  let declLabel := Instr.text "Declaration:".data x (A4_HEIGHT - y2) 10 true
  let y3 := y2 + 14
  let declarationLines := wrapText invoice.declaration textAreaWidth fonts.normal 9
  let declInstrs := declarationLines.enum.map fun p =>
    Instr.text p.2 x (A4_HEIGHT - (y3 + (p.1 : ℚ) * 12)) 9 false
  let leftSectionBottom := y3 + (declarationLines.length : ℚ) * 12
  let bankInstrs := [
    Instr.text ("Company".data ++ '\'' :: "s Bank Details".data) bankX
      (A4_HEIGHT - startY) 10 true,
    Instr.text ("Bank Name : ".data ++ bank.name) bankX
      (A4_HEIGHT - (startY + 14)) 9 false,
    Instr.text ("A/c No. : ".data ++ bank.accountNumber) bankX
      (A4_HEIGHT - (startY + 27)) 9 false,
    Instr.text ("Branch & IFSC Code : ".data ++ bank.branch ++ " & ".data ++ bank.ifsc)
      bankX (A4_HEIGHT - (startY + 40)) 9 false]
  let bankY := startY + 53
  (remarksLabel :: remarksInstrs ++ declLabel :: declInstrs ++ bankInstrs,
   max leftSectionBottom bankY + 6)

/-! ### Concrete inputs used by scenario theorems and witnesses -/

def blankParty : Party :=
  { name := [], contact := [], state := [], stateCode := [], addressLine := [] }

/-- A minimal invoice record: no items, no tax rates, no round-off. -/
def blankInvoice : InvoiceData :=
  { number := [], issueDate := [], dueDate := [], terms := [], reference := []
    otherReference := [], paymentMode := [], consignee := blankParty
    buyer := blankParty, hsn := [], items := [], taxRates := none
    roundOff := none, amountInWords := [], taxAmountInWords := []
    remarks := [], declaration := [] }

/-- The §8 scenario input: a single line item with quantity 1 and rate
3033.89, cgst = sgst = 0.09, roundOff = 0.01 (the data of
`createInvoiceData()`, source lines 126-138). -/
def scenarioInvoice : InvoiceData :=
  { blankInvoice with
    items := [{ description := "Monthly Payment".data, quantity := 1,
                rate := 3033.89, unit := "Nos.".data }]
    taxRates := some { cgst := some 0.09, sgst := some 0.09 }
    roundOff := some 0.01 }

end Invoice

namespace Invoice

/-! ### Lemmas about `splitOnChar`, `joinWords` and the wrap loop -/

lemma splitOnChar_cons_eq (sep c : Char) (cs : List Char) {v : List Char}
    {vs : List (List Char)} (h : splitOnChar sep cs = v :: vs) :
    splitOnChar sep (c :: cs) =
      if c = sep then [] :: v :: vs else (c :: v) :: vs := by
  simp only [splitOnChar, h]

lemma splitOnChar_ne_nil (sep : Char) (s : List Char) : splitOnChar sep s ≠ [] := by
  induction s with
  | nil => simp [splitOnChar]
  | cons c cs ih =>
    cases h : splitOnChar sep cs with
    | nil => exact absurd h ih
    | cons w ws =>
      rw [splitOnChar_cons_eq sep c cs h]
      split <;> simp

lemma sep_not_mem_of_mem_splitOnChar {sep : Char} {s : List Char} :
    ∀ {w : List Char}, w ∈ splitOnChar sep s → sep ∉ w := by
  induction s with
  | nil =>
    intro w hw
    simp [splitOnChar] at hw
    simp [hw]
  | cons c cs ih =>
    intro w hw
    cases h : splitOnChar sep cs with
    | nil => exact absurd h (splitOnChar_ne_nil sep cs)
    | cons v vs =>
      rw [splitOnChar_cons_eq sep c cs h] at hw
      by_cases hc : c = sep
      · rw [if_pos hc] at hw
        rcases List.mem_cons.1 hw with hw1 | hw1
        · simp [hw1]
        · exact ih (h ▸ hw1)
      · rw [if_neg hc] at hw
        rcases List.mem_cons.1 hw with hw1 | hw1
        · subst hw1
          intro hmem
          rcases List.mem_cons.1 hmem with hmem1 | hmem1
          · exact hc hmem1.symm
          · exact ih (h ▸ List.mem_cons_self v vs) hmem1
        · exact ih (h ▸ List.mem_cons_of_mem v hw1)

lemma mem_of_mem_splitOnChar {sep : Char} {s : List Char} :
    ∀ {w : List Char}, w ∈ splitOnChar sep s → ∀ {c : Char}, c ∈ w → c ∈ s := by
  induction s with
  | nil =>
    intro w hw
    simp [splitOnChar] at hw
    simp [hw]
  | cons d ds ih =>
    intro w hw c hc
    cases h : splitOnChar sep ds with
    | nil => exact absurd h (splitOnChar_ne_nil sep ds)
    | cons v vs =>
      rw [splitOnChar_cons_eq sep d ds h] at hw
      by_cases hd : d = sep
      · rw [if_pos hd] at hw
        rcases List.mem_cons.1 hw with hw1 | hw1
        · subst hw1; cases hc
        · exact List.mem_cons_of_mem d (ih (h ▸ hw1) hc)
      · rw [if_neg hd] at hw
        rcases List.mem_cons.1 hw with hw1 | hw1
        · subst hw1
          rcases List.mem_cons.1 hc with hc1 | hc1
          · exact hc1 ▸ List.mem_cons_self d ds
          · exact List.mem_cons_of_mem d (ih (h ▸ List.mem_cons_self v vs) hc1)
        · exact List.mem_cons_of_mem d (ih (h ▸ List.mem_cons_of_mem v hw1) hc)

lemma exists_mem_splitOnChar {sep c : Char} {s : List Char}
    (hc : c ∈ s) (hne : c ≠ sep) : ∃ w ∈ splitOnChar sep s, c ∈ w := by
  induction s with
  | nil => cases hc
  | cons d ds ih =>
    cases h : splitOnChar sep ds with
    | nil => exact absurd h (splitOnChar_ne_nil sep ds)
    | cons v vs =>
      rw [splitOnChar_cons_eq sep d ds h]
      rcases List.mem_cons.1 hc with hc1 | hc1
      · have hd : ¬ d = sep := by rw [← hc1]; exact hne
        rw [if_neg hd, ← hc1]
        exact ⟨c :: v, List.mem_cons_self _ _, List.mem_cons_self c v⟩
      · rcases ih hc1 with ⟨w, hw, hcw⟩
        rw [h] at hw
        by_cases hd : d = sep
        · rw [if_pos hd]
          exact ⟨w, List.mem_cons_of_mem [] hw, hcw⟩
        · rw [if_neg hd]
          rcases List.mem_cons.1 hw with hw1 | hw1
          · exact ⟨d :: v, List.mem_cons_self _ _, hw1 ▸ List.mem_cons_of_mem d hcw⟩
          · exact ⟨w, List.mem_cons_of_mem (d :: v) hw1, hcw⟩

lemma splitOnChar_append_cons (sep : Char) (a b : List Char) :
    splitOnChar sep (a ++ sep :: b) = splitOnChar sep a ++ splitOnChar sep b := by
  induction a with
  | nil =>
    cases h : splitOnChar sep b with
    | nil => exact absurd h (splitOnChar_ne_nil sep b)
    | cons v vs =>
      rw [List.nil_append, splitOnChar_cons_eq sep sep b h, if_pos rfl]
      simp [splitOnChar, h]
  | cons d ds ih =>
    cases h : splitOnChar sep (ds ++ sep :: b) with
    | nil => exact absurd h (splitOnChar_ne_nil sep _)
    | cons v vs =>
      rw [List.cons_append, splitOnChar_cons_eq sep d _ h]
      cases h2 : splitOnChar sep ds with
      | nil => exact absurd h2 (splitOnChar_ne_nil sep ds)
      | cons u us =>
        have hih : v :: vs = u :: (us ++ splitOnChar sep b) := by
          have := ih
          rw [h, h2] at this
          simpa using this
        injection hih with hv hvs
        rw [splitOnChar_cons_eq sep d ds h2]
        by_cases hd : d = sep
        · rw [if_pos hd, if_pos hd, hv, hvs]
          simp
        · rw [if_neg hd, if_neg hd, hv, hvs]
          simp

lemma joinWords_append_singleton {ws : List (List Char)} (h : ws ≠ [])
    (w : List Char) : joinWords (ws ++ [w]) = joinWords ws ++ ' ' :: w := by
  induction ws with
  | nil => exact absurd rfl h
  | cons x t ih =>
    cases t with
    | nil => simp [joinWords]
    | cons y t2 =>
      have h1 : joinWords ((x :: y :: t2) ++ [w]) =
          x ++ ' ' :: joinWords ((y :: t2) ++ [w]) := by
        simp [joinWords]
      have h2 : joinWords (x :: y :: t2) = x ++ ' ' :: joinWords (y :: t2) := by
        simp [joinWords]
      rw [h1, ih (by simp), h2]
      simp

/-- The shape invariant of every line the wrap loop produces, relative to
a word list `W`: the line is nonempty, fits the width budget or is itself
one of the words of `W`, and is a single-space join of words of `W`. -/
def GoodLine (meas : List Char → ℚ) (maxW : ℚ) (W : List (List Char))
    (l : List Char) : Prop :=
  l ≠ [] ∧ (meas l ≤ maxW ∨ l ∈ W) ∧
    ∃ ws, ws ≠ [] ∧ l = joinWords ws ∧ ∀ w ∈ ws, w ∈ W

lemma wrapStep_nil_cur (meas : List Char → ℚ) (maxW : ℚ)
    (lines : List (List Char)) (w : List Char) :
    wrapStep meas maxW (lines, []) w =
      if trimmedEmpty w then (lines, []) else (lines, w) := by
  simp [wrapStep]

lemma wrapStep_cons_cur (meas : List Char → ℚ) (maxW : ℚ)
    (lines : List (List Char)) (cur w : List Char) (h : cur ≠ []) :
    wrapStep meas maxW (lines, cur) w =
      if trimmedEmpty (cur ++ ' ' :: w) then (lines, cur)
      else if maxW < meas (cur ++ ' ' :: w) then (lines ++ [cur], w)
      else (lines, cur ++ ' ' :: w) := by
  simp [wrapStep, h]

lemma wrapStep_inv (meas : List Char → ℚ) (maxW : ℚ) (W : List (List Char))
    (st : List (List Char) × List Char) (w : List Char) (hw : w ∈ W)
    (h1 : ∀ l ∈ st.1, GoodLine meas maxW W l)
    (h2 : st.2 = [] ∨ GoodLine meas maxW W st.2) :
    (∀ l ∈ (wrapStep meas maxW st w).1, GoodLine meas maxW W l) ∧
      ((wrapStep meas maxW st w).2 = [] ∨
        GoodLine meas maxW W (wrapStep meas maxW st w).2) := by
  obtain ⟨lines, cur⟩ := st
  by_cases hcur : cur = []
  · subst hcur
    rw [wrapStep_nil_cur]
    by_cases ht : trimmedEmpty w
    · rw [if_pos ht]
      exact ⟨h1, Or.inl rfl⟩
    · rw [if_neg ht]
      refine ⟨h1, Or.inr ?_⟩
      have hwne : w ≠ [] := by
        intro he
        subst he
        exact ht rfl
      exact ⟨hwne, Or.inr hw, [w], by simp, rfl, by simp [hw]⟩
  · rcases h2 with hc | hgood
    · exact absurd hc hcur
    rw [wrapStep_cons_cur meas maxW lines cur w hcur]
    by_cases ht : trimmedEmpty (cur ++ ' ' :: w)
    · rw [if_pos ht]
      exact ⟨h1, Or.inr hgood⟩
    · rw [if_neg ht]
      by_cases hlt : maxW < meas (cur ++ ' ' :: w)
      · rw [if_pos hlt]
        constructor
        · intro l hl
          rcases List.mem_append.1 hl with hl | hl
          · exact h1 l hl
          · rw [List.mem_singleton] at hl
            subst hl
            exact hgood
        · by_cases hwn : w = []
          · exact Or.inl hwn
          · exact Or.inr ⟨hwn, Or.inr hw, [w], by simp, rfl, by simp [hw]⟩
      · rw [if_neg hlt]
        refine ⟨h1, Or.inr ?_⟩
        obtain ⟨hne, hwidth, ws, hwsne, hjoin, hmem⟩ := hgood
        refine ⟨by simp, Or.inl (le_of_not_lt hlt), ws ++ [w], by simp, ?_, ?_⟩
        · rw [joinWords_append_singleton hwsne, ← hjoin]
        · intro v hv
          rcases List.mem_append.1 hv with hv | hv
          · exact hmem v hv
          · rw [List.mem_singleton] at hv
            subst hv
            exact hw

lemma wrapFold_inv (meas : List Char → ℚ) (maxW : ℚ) (W : List (List Char)) :
    ∀ (words : List (List Char)) (st : List (List Char) × List Char),
      (∀ w ∈ words, w ∈ W) →
      (∀ l ∈ st.1, GoodLine meas maxW W l) →
      (st.2 = [] ∨ GoodLine meas maxW W st.2) →
      (∀ l ∈ (words.foldl (wrapStep meas maxW) st).1, GoodLine meas maxW W l) ∧
        ((words.foldl (wrapStep meas maxW) st).2 = [] ∨
          GoodLine meas maxW W (words.foldl (wrapStep meas maxW) st).2) := by
  intro words
  induction words with
  | nil =>
    intro st _ h1 h2
    exact ⟨h1, h2⟩
  | cons w rest ih =>
    intro st hW h1 h2
    rw [List.foldl_cons]
    have hw : w ∈ W := hW w (List.mem_cons_self _ _)
    obtain ⟨g1, g2⟩ := wrapStep_inv meas maxW W st w hw h1 h2
    exact ih _ (fun v hv => hW v (List.mem_cons_of_mem _ hv)) g1 g2

lemma wrapParagraph_good (meas : List Char → ℚ) (maxW : ℚ) (p : List Char) :
    ∀ l ∈ wrapParagraph meas maxW p, GoodLine meas maxW (splitOnChar ' ' p) l := by
  intro l hl
  have h := wrapFold_inv meas maxW (splitOnChar ' ' p) (splitOnChar ' ' p)
    ([], []) (fun _ hm => hm) (by simp) (Or.inl rfl)
  simp only [wrapParagraph] at hl
  by_cases hz :
      ((splitOnChar ' ' p).foldl (wrapStep meas maxW) ([], [])).2 = []
  · rw [if_pos hz] at hl
    exact h.1 l hl
  · rw [if_neg hz] at hl
    rcases List.mem_append.1 hl with hl | hl
    · exact h.1 l hl
    · rw [List.mem_singleton] at hl
      subst hl
      rcases h.2 with h2 | h2
      · exact absurd h2 hz
      · exact h2

/-- C4, amended: for every text, positive width budget, and width measure
that gives the empty text a width within the budget, every line of
`wrapText(text, maxWidth, font, fontSize)` either has measured width at
most `maxWidth` or is a single over-long word (nonempty and containing no
space); and no word is split: every line is a single-space join of whole
words of the input. -/
theorem wrap_width_bound (font : Font) (fontSize maxWidth : ℚ)
    (text : List Char) (hpos : 0 < maxWidth)
    (hempty : font [] fontSize ≤ maxWidth) :
    ∀ l ∈ wrapText text maxWidth font fontSize,
      (font l fontSize ≤ maxWidth ∨
        (maxWidth < font l fontSize ∧ l ≠ [] ∧ ' ' ∉ l)) ∧
      ∃ ws, l = joinWords ws ∧
        ∀ w ∈ ws, ∃ p ∈ splitOnChar '\n' text, w ∈ splitOnChar ' ' p := by
  intro l hl
  simp only [wrapText] at hl
  by_cases hz : (splitOnChar '\n' text).flatMap
      (wrapParagraph (fun s => font s fontSize) maxWidth) = []
  · rw [if_pos hz] at hl
    rw [List.mem_singleton] at hl
    subst hl
    exact ⟨Or.inl hempty, [], rfl, by simp⟩
  · rw [if_neg hz] at hl
    rcases List.mem_flatMap.1 hl with ⟨p, hp, hlp⟩
    obtain ⟨hne, hwidth, ws, hwsne, hjoin, hmem⟩ :=
      wrapParagraph_good (fun s => font s fontSize) maxWidth p l hlp
    constructor
    · rcases hwidth with hle | hmemW
      · exact Or.inl hle
      · rcases le_or_lt (font l fontSize) maxWidth with hle | hgt
        · exact Or.inl hle
        · exact Or.inr ⟨hgt, hne, sep_not_mem_of_mem_splitOnChar hmemW⟩
    · exact ⟨ws, hjoin, fun w hw => ⟨p, hp, hmem w hw⟩⟩

/-- Witness for C4 at a concrete input: measure constant 0, budget 5,
text `hi`. -/
theorem wrap_width_bound_witness :
    (0 : ℚ) < 5 ∧ (fun (_ : List Char) (_ : ℚ) => (0 : ℚ)) [] 9 ≤ 5 ∧
    ∀ l ∈ wrapText ('h' :: 'i' :: []) 5 (fun _ _ => 0) 9,
      ((fun (_ : List Char) (_ : ℚ) => (0 : ℚ)) l 9 ≤ 5 ∨
        ((5 : ℚ) < (fun (_ : List Char) (_ : ℚ) => (0 : ℚ)) l 9 ∧
          l ≠ [] ∧ ' ' ∉ l)) ∧
      ∃ ws, l = joinWords ws ∧
        ∀ w ∈ ws, ∃ p ∈ splitOnChar '\n' ('h' :: 'i' :: []),
          w ∈ splitOnChar ' ' p :=
  ⟨by norm_num, by norm_num,
    wrap_width_bound (fun _ _ => 0) 9 5 ('h' :: 'i' :: [])
      (by norm_num) (by norm_num)⟩

/-- C4, counterexample: with the positive budget 1 and a measure that
assigns every string (including the empty one) width 2, wrapping the
empty text yields the line `[]`, which neither fits the budget nor is a
single over-long word — so the claim does not hold for arbitrary
measurement functions. -/
theorem wrap_width_bound_refuted :
    (0 : ℚ) < 1 ∧
    ([] : List Char) ∈ wrapText [] 1 (fun _ _ => 2) 9 ∧
    ¬ (((fun (_ : List Char) (_ : ℚ) => (2 : ℚ)) [] 9 ≤ 1) ∨
      ((1 : ℚ) < (fun (_ : List Char) (_ : ℚ) => (2 : ℚ)) [] 9 ∧
        ([] : List Char) ≠ [] ∧ ' ' ∉ ([] : List Char))) := by
  decide

lemma trimmedEmpty_words {p : List Char} (hp : trimmedEmpty p = true) :
    ∀ w ∈ splitOnChar ' ' p, trimmedEmpty w = true := by
  intro w hw
  simp only [trimmedEmpty, List.all_eq_true] at hp ⊢
  intro c hc
  exact hp c (mem_of_mem_splitOnChar hw hc)

lemma wrapFold_ws_nil (meas : List Char → ℚ) (maxW : ℚ) :
    ∀ words : List (List Char), (∀ w ∈ words, trimmedEmpty w = true) →
      words.foldl (wrapStep meas maxW) ([], []) = ([], []) := by
  intro words
  induction words with
  | nil =>
    intro _
    rfl
  | cons w rest ih =>
    intro h
    rw [List.foldl_cons, wrapStep_nil_cur,
      if_pos (h w (List.mem_cons_self _ _))]
    exact ih fun v hv => h v (List.mem_cons_of_mem _ hv)

/-- C6: a paragraph containing no words (every character whitespace, in
particular an empty segment between two explicit line breaks) contributes
no line; when every paragraph contributes nothing, the result is exactly
one empty line; hence the wrapper output is never the empty sequence. -/
theorem wrap_never_empty (font : Font) (fontSize maxWidth : ℚ)
    (text : List Char) :
    (∀ p : List Char, trimmedEmpty p = true →
      wrapParagraph (fun s => font s fontSize) maxWidth p = []) ∧
    ((splitOnChar '\n' text).flatMap
        (wrapParagraph (fun s => font s fontSize) maxWidth) = [] →
      wrapText text maxWidth font fontSize = [[]]) ∧
    wrapText text maxWidth font fontSize ≠ [] := by
  refine ⟨?_, ?_, ?_⟩
  · intro p hp
    simp only [wrapParagraph]
    rw [wrapFold_ws_nil _ _ _ (trimmedEmpty_words hp)]
    simp
  · intro h
    simp only [wrapText]
    rw [if_pos h]
  · simp only [wrapText]
    by_cases hz : (splitOnChar '\n' text).flatMap
        (wrapParagraph (fun s => font s fontSize) maxWidth) = []
    · rw [if_pos hz]
      simp
    · rw [if_neg hz]
      exact hz

/-- Witness for C6 at a concrete input: the text consisting of one line
break (two empty paragraphs). -/
theorem wrap_never_empty_witness :
    wrapParagraph (fun s => (fun (_ : List Char) (_ : ℚ) => (0 : ℚ)) s 9) 5 [] = [] ∧
    wrapText ('\n' :: []) 5 (fun _ _ => 0) 9 = [[]] ∧
    wrapText ('\n' :: []) 5 (fun _ _ => 0) 9 ≠ [] := by
  have h := wrap_never_empty (fun _ _ => 0) 9 5 ('\n' :: [])
  exact ⟨h.1 [] rfl, h.2.1 (by decide), h.2.2⟩

lemma wrapStep_pres_nonempty (meas : List Char → ℚ) (maxW : ℚ)
    (st : List (List Char) × List Char) (w : List Char)
    (h : st.1 ≠ [] ∨ ∃ c ∈ st.2, c.isWhitespace = false) :
    (wrapStep meas maxW st w).1 ≠ [] ∨
      ∃ c ∈ (wrapStep meas maxW st w).2, c.isWhitespace = false := by
  obtain ⟨lines, cur⟩ := st
  rcases h with hl | ⟨c, hc, hcw⟩
  · simp only [wrapStep]
    split_ifs <;>
      first
        | exact Or.inl hl
        | exact Or.inl (by simp)
  · have hcur : cur ≠ [] := by
      intro he
      subst he
      cases hc
    rw [wrapStep_cons_cur meas maxW lines cur w hcur]
    have htest : ¬ trimmedEmpty (cur ++ ' ' :: w) = true := by
      intro hT
      simp only [trimmedEmpty, List.all_eq_true] at hT
      have := hT c (List.mem_append.2 (Or.inl hc))
      rw [hcw] at this
      cases this
    rw [if_neg htest]
    by_cases hlt : maxW < meas (cur ++ ' ' :: w)
    · rw [if_pos hlt]
      exact Or.inl (by simp)
    · rw [if_neg hlt]
      exact Or.inr ⟨c, List.mem_append.2 (Or.inl hc), hcw⟩

lemma wrapStep_establish (meas : List Char → ℚ) (maxW : ℚ)
    (st : List (List Char) × List Char) (w : List Char)
    (hw : ∃ c ∈ w, c.isWhitespace = false) :
    (wrapStep meas maxW st w).1 ≠ [] ∨
      ∃ c ∈ (wrapStep meas maxW st w).2, c.isWhitespace = false := by
  obtain ⟨lines, cur⟩ := st
  obtain ⟨c, hc, hcw⟩ := hw
  by_cases hcur : cur = []
  · subst hcur
    rw [wrapStep_nil_cur]
    have ht : ¬ trimmedEmpty w = true := by
      intro hT
      simp only [trimmedEmpty, List.all_eq_true] at hT
      have := hT c hc
      rw [hcw] at this
      cases this
    rw [if_neg ht]
    exact Or.inr ⟨c, hc, hcw⟩
  · rw [wrapStep_cons_cur meas maxW lines cur w hcur]
    have hcmem : c ∈ cur ++ ' ' :: w :=
      List.mem_append.2 (Or.inr (List.mem_cons_of_mem ' ' hc))
    have ht : ¬ trimmedEmpty (cur ++ ' ' :: w) = true := by
      intro hT
      simp only [trimmedEmpty, List.all_eq_true] at hT
      have := hT c hcmem
      rw [hcw] at this
      cases this
    rw [if_neg ht]
    by_cases hlt : maxW < meas (cur ++ ' ' :: w)
    · rw [if_pos hlt]
      exact Or.inl (by simp)
    · rw [if_neg hlt]
      exact Or.inr ⟨c, hcmem, hcw⟩

lemma wrapFold_pres (meas : List Char → ℚ) (maxW : ℚ) :
    ∀ (words : List (List Char)) (st : List (List Char) × List Char),
      (st.1 ≠ [] ∨ ∃ c ∈ st.2, c.isWhitespace = false) →
      ((words.foldl (wrapStep meas maxW) st).1 ≠ [] ∨
        ∃ c ∈ (words.foldl (wrapStep meas maxW) st).2,
          c.isWhitespace = false) := by
  intro words
  induction words with
  | nil =>
    intro st h
    exact h
  | cons w rest ih =>
    intro st h
    rw [List.foldl_cons]
    exact ih _ (wrapStep_pres_nonempty meas maxW st w h)

lemma wrapFold_exists (meas : List Char → ℚ) (maxW : ℚ) :
    ∀ (words : List (List Char)) (st : List (List Char) × List Char),
      (∃ w ∈ words, ∃ c ∈ w, c.isWhitespace = false) →
      ((words.foldl (wrapStep meas maxW) st).1 ≠ [] ∨
        ∃ c ∈ (words.foldl (wrapStep meas maxW) st).2,
          c.isWhitespace = false) := by
  intro words
  induction words with
  | nil =>
    intro st h
    obtain ⟨w, hw, _⟩ := h
    cases hw
  | cons w rest ih =>
    intro st h
    obtain ⟨w1, hw1, hc1⟩ := h
    rw [List.foldl_cons]
    rcases List.mem_cons.1 hw1 with he | he
    · subst he
      exact wrapFold_pres meas maxW rest _
        (wrapStep_establish meas maxW st w1 hc1)
    · exact ih _ ⟨w1, he, hc1⟩

lemma wrapParagraph_ne_nil (meas : List Char → ℚ) (maxW : ℚ) (p : List Char)
    (h : ∃ w ∈ splitOnChar ' ' p, ∃ c ∈ w, c.isWhitespace = false) :
    wrapParagraph meas maxW p ≠ [] := by
  have hP := wrapFold_exists meas maxW (splitOnChar ' ' p) ([], []) h
  simp only [wrapParagraph]
  by_cases hz :
      ((splitOnChar ' ' p).foldl (wrapStep meas maxW) ([], [])).2 = []
  · rw [if_pos hz]
    rcases hP with h1 | ⟨c, hc, _⟩
    · exact h1
    · rw [hz] at hc
      cases hc
  · rw [if_neg hz]
    simp

lemma flatMap_ne_nil_of_mem {α β : Type} (f : α → List β) {l : List α}
    {x : α} (hx : x ∈ l) (hfx : f x ≠ []) : l.flatMap f ≠ [] := by
  induction l with
  | nil => cases hx
  | cons a t ih =>
    rcases List.mem_cons.1 hx with he | he
    · subst he
      simp only [List.flatMap_cons]
      intro hcontra
      exact hfx (List.append_eq_nil.1 hcontra).1
    · simp only [List.flatMap_cons]
      intro hcontra
      exact ih he (List.append_eq_nil.1 hcontra).2

/-- C5, amended: a description containing an explicit line break with at
least one non-whitespace character on each side of the break wraps to at
least two output lines, for every width budget and measure. -/
theorem wrap_linebreak_two_lines (font : Font) (fontSize maxWidth : ℚ)
    (a b : List Char) (ha : ∃ c ∈ a, c.isWhitespace = false)
    (hb : ∃ c ∈ b, c.isWhitespace = false) :
    2 ≤ (wrapText (a ++ '\n' :: b) maxWidth font fontSize).length := by
  obtain ⟨ca, hca, hcaw⟩ := ha
  obtain ⟨cb, hcb, hcbw⟩ := hb
  have hca_n : ca ≠ '\n' := by
    intro he
    rw [he] at hcaw
    cases hcaw
  have hca_s : ca ≠ ' ' := by
    intro he
    rw [he] at hcaw
    cases hcaw
  have hcb_n : cb ≠ '\n' := by
    intro he
    rw [he] at hcbw
    cases hcbw
  have hcb_s : cb ≠ ' ' := by
    intro he
    rw [he] at hcbw
    cases hcbw
  obtain ⟨pa, hpa, hcpa⟩ := exists_mem_splitOnChar hca hca_n
  obtain ⟨pb, hpb, hcpb⟩ := exists_mem_splitOnChar hcb hcb_n
  have hwa : wrapParagraph (fun s => font s fontSize) maxWidth pa ≠ [] := by
    apply wrapParagraph_ne_nil
    obtain ⟨w, hw, hcw⟩ := exists_mem_splitOnChar hcpa hca_s
    exact ⟨w, hw, ca, hcw, hcaw⟩
  have hwb : wrapParagraph (fun s => font s fontSize) maxWidth pb ≠ [] := by
    apply wrapParagraph_ne_nil
    obtain ⟨w, hw, hcw⟩ := exists_mem_splitOnChar hcpb hcb_s
    exact ⟨w, hw, cb, hcw, hcbw⟩
  have hsplit : splitOnChar '\n' (a ++ '\n' :: b) =
      splitOnChar '\n' a ++ splitOnChar '\n' b :=
    splitOnChar_append_cons '\n' a b
  have hLa : (splitOnChar '\n' a).flatMap
      (wrapParagraph (fun s => font s fontSize) maxWidth) ≠ [] :=
    flatMap_ne_nil_of_mem _ hpa hwa
  have hLb : (splitOnChar '\n' b).flatMap
      (wrapParagraph (fun s => font s fontSize) maxWidth) ≠ [] :=
    flatMap_ne_nil_of_mem _ hpb hwb
  have hlen : 2 ≤ ((splitOnChar '\n' (a ++ '\n' :: b)).flatMap
      (wrapParagraph (fun s => font s fontSize) maxWidth)).length := by
    rw [hsplit, List.flatMap_append, List.length_append]
    have h1 : 0 < ((splitOnChar '\n' a).flatMap
        (wrapParagraph (fun s => font s fontSize) maxWidth)).length :=
      List.length_pos.2 hLa
    have h2 : 0 < ((splitOnChar '\n' b).flatMap
        (wrapParagraph (fun s => font s fontSize) maxWidth)).length :=
      List.length_pos.2 hLb
    omega
  simp only [wrapText]
  rw [if_neg (by
    intro hcontra
    rw [hcontra] at hlen
    simp at hlen)]
  exact hlen

/-- Witness for C5 at a concrete input: text `a\nb`, measure constant 0,
budget 5. -/
theorem wrap_linebreak_two_lines_witness :
    (∃ c ∈ ['a'], c.isWhitespace = false) ∧
    (∃ c ∈ ['b'], c.isWhitespace = false) ∧
    2 ≤ (wrapText (['a'] ++ '\n' :: ['b']) 5 (fun _ _ => 0) 9).length :=
  ⟨by decide, by decide,
    wrap_linebreak_two_lines (fun _ _ => 0) 9 5 ['a'] ['b']
      (by decide) (by decide)⟩

/-- C5, counterexample: the description `a\n` contains an explicit line
break, yet wraps to exactly one output line (the paragraph after the
break is empty and contributes nothing), for a concrete width and
measure. -/
theorem wrap_linebreak_refuted :
    '\n' ∈ ('a' :: '\n' :: []) ∧
    (wrapText ('a' :: '\n' :: []) 5 (fun _ _ => 0) 9).length = 1 := by
  decide

/-! ### Cursor monotonicity (C8) -/

lemma foldl_snd_mono (f : List Instr × ℚ → List Char → List Instr × ℚ)
    (hf : ∀ acc line, acc.2 ≤ (f acc line).2) :
    ∀ (ls : List (List Char)) (acc : List Instr × ℚ),
      acc.2 ≤ (ls.foldl f acc).2 := by
  intro ls
  induction ls with
  | nil =>
    intro acc
    exact le_refl _
  | cons l t ih =>
    intro acc
    rw [List.foldl_cons]
    exact le_trans (hf acc l) (ih (f acc l))

lemma le_add_wrap_step (a : ℚ) (n : ℕ) (c : ℚ) (hc : 0 ≤ c) :
    a ≤ a + (n : ℚ) * 12 + c := by
  have hn : (0 : ℚ) ≤ (n : ℚ) := Nat.cast_nonneg n
  linarith

lemma drawCompanyHeader_bottom (company : Company) (top : ℚ) (fonts : Fonts)
    (logoImage : Option ImageHandle) :
    top < (drawCompanyHeader company top fonts logoImage).2 := by
  cases logoImage with
  | none =>
    show top < max _ _
    refine lt_of_lt_of_le ?_ (le_max_left _ _)
    refine lt_of_lt_of_le (show top < ((([] : List Instr), top + 6 + 14)).2 by
      show top < top + 6 + 14
      linarith) (foldl_snd_mono _ ?_ _ _)
    intro acc line
    exact le_add_wrap_step acc.2 _ 2 (by norm_num)
  | some img =>
    show top < max _ _
    refine lt_of_lt_of_le ?_ (le_max_left _ _)
    refine lt_of_lt_of_le (show top < ((([] : List Instr), top + 6 + 14)).2 by
      show top < top + 6 + 14
      linarith) (foldl_snd_mono _ ?_ _ _)
    intro acc line
    exact le_add_wrap_step acc.2 _ 2 (by norm_num)

lemma drawInvoiceMetaTable_snd (invoice : InvoiceData) (top : ℚ)
    (fonts : Fonts) :
    (drawInvoiceMetaTable invoice top fonts).2 = top + ((6 : ℕ) : ℚ) * 24 := rfl

lemma drawInvoiceMetaTable_bottom (invoice : InvoiceData) (top : ℚ)
    (fonts : Fonts) : top < (drawInvoiceMetaTable invoice top fonts).2 := by
  rw [drawInvoiceMetaTable_snd]
  norm_num

lemma drawPartyBlocks_snd (invoice : InvoiceData) (top : ℚ) (fonts : Fonts) :
    (drawPartyBlocks invoice top fonts).2 = top + 82 + 82 := rfl

lemma drawPartyBlocks_bottom (invoice : InvoiceData) (top : ℚ) (fonts : Fonts) :
    top < (drawPartyBlocks invoice top fonts).2 := by
  rw [drawPartyBlocks_snd]
  linarith

lemma drawItemsSection_snd (invoice : InvoiceData) (totals : Totals)
    (startY : ℚ) (fonts : Fonts) :
    (drawItemsSection invoice totals startY fonts).2 =
      startY + 26 +
        (15 + 8 +
          ((wrapText (invoice.items.headD
              { description := [], quantity := 0, rate := 0, unit := [] }).description
              (225 - 8) fonts.bold 10).length : ℚ) * 15 +
          (((3 : ℕ) : ℚ) * 15 + 8) + 12) + 20 := rfl

lemma drawItemsSection_bottom (invoice : InvoiceData) (totals : Totals)
    (startY : ℚ) (fonts : Fonts) :
    startY < (drawItemsSection invoice totals startY fonts).2 := by
  rw [drawItemsSection_snd]
  have h : (0 : ℚ) ≤
      ((wrapText (invoice.items.headD
        { description := [], quantity := 0, rate := 0, unit := [] }).description
        (225 - 8) fonts.bold 10).length : ℚ) := Nat.cast_nonneg _
  have h6 : ((6 : ℕ) : ℚ) = 6 := by norm_num
  have h3 : ((3 : ℕ) : ℚ) = 3 := by norm_num
  rw [h3]
  linarith

lemma drawAmountSummaries_snd (invoice : InvoiceData) (startY : ℚ)
    (fonts : Fonts) :
    (drawAmountSummaries invoice startY fonts).2 =
      startY + max 14
        (((wrapText invoice.amountInWords (getContentWidth - 210)
          fonts.normal 9).length : ℚ) * 11) := rfl

lemma drawAmountSummaries_bottom (invoice : InvoiceData) (startY : ℚ)
    (fonts : Fonts) : startY < (drawAmountSummaries invoice startY fonts).2 := by
  rw [drawAmountSummaries_snd]
  have h : (14 : ℚ) ≤ max 14
      (((wrapText invoice.amountInWords (getContentWidth - 210)
        fonts.normal 9).length : ℚ) * 11) := le_max_left _ _
  linarith

lemma drawTaxBreakup_snd (invoice : InvoiceData) (totals : Totals)
    (startY : ℚ) (fonts : Fonts) :
    (drawTaxBreakup invoice totals startY fonts).2 =
      startY + 24 + 24 + 24 + 12 + max 16
        (((wrapText invoice.taxAmountInWords (getContentWidth - 170)
          fonts.normal 9).length : ℚ) * 11) := rfl

lemma drawTaxBreakup_bottom (invoice : InvoiceData) (totals : Totals)
    (startY : ℚ) (fonts : Fonts) :
    startY < (drawTaxBreakup invoice totals startY fonts).2 := by
  rw [drawTaxBreakup_snd]
  have h : (16 : ℚ) ≤ max 16
      (((wrapText invoice.taxAmountInWords (getContentWidth - 170)
        fonts.normal 9).length : ℚ) * 11) := le_max_left _ _
  linarith

lemma drawBankAndRemarks_snd (invoice : InvoiceData) (bank : Bank)
    (startY : ℚ) (fonts : Fonts) :
    (drawBankAndRemarks invoice bank startY fonts).2 =
      max (startY + 14 +
          ((wrapText invoice.remarks (getContentWidth / 2 - 10)
            fonts.normal 9).length : ℚ) * 12 + 10 + 14 +
          ((wrapText invoice.declaration (getContentWidth / 2 - 10)
            fonts.normal 9).length : ℚ) * 12)
        (startY + 53) + 6 := rfl

lemma drawBankAndRemarks_bottom (invoice : InvoiceData) (bank : Bank)
    (startY : ℚ) (fonts : Fonts) :
    startY < (drawBankAndRemarks invoice bank startY fonts).2 := by
  rw [drawBankAndRemarks_snd]
  have h : startY + 53 ≤ max
      (startY + 14 +
        ((wrapText invoice.remarks (getContentWidth / 2 - 10)
          fonts.normal 9).length : ℚ) * 12 + 10 + 14 +
        ((wrapText invoice.declaration (getContentWidth / 2 - 10)
          fonts.normal 9).length : ℚ) * 12)
      (startY + 53) := le_max_right _ _
  linarith

/-- C8: every cursor-threaded section composer returns a bottom cursor
strictly greater than the starting cursor it was given, for every input
record, font set, and starting cursor, so consecutively composed sections
never overlap vertically. -/
theorem composers_cursor_monotone :
    (∀ (company : Company) (top : ℚ) (fonts : Fonts)
        (logo : Option ImageHandle),
      top < (drawCompanyHeader company top fonts logo).2) ∧
    (∀ (invoice : InvoiceData) (top : ℚ) (fonts : Fonts),
      top < (drawInvoiceMetaTable invoice top fonts).2) ∧
    (∀ (invoice : InvoiceData) (top : ℚ) (fonts : Fonts),
      top < (drawPartyBlocks invoice top fonts).2) ∧
    (∀ (invoice : InvoiceData) (totals : Totals) (startY : ℚ) (fonts : Fonts),
      startY < (drawItemsSection invoice totals startY fonts).2) ∧
    (∀ (invoice : InvoiceData) (startY : ℚ) (fonts : Fonts),
      startY < (drawAmountSummaries invoice startY fonts).2) ∧
    (∀ (invoice : InvoiceData) (totals : Totals) (startY : ℚ) (fonts : Fonts),
      startY < (drawTaxBreakup invoice totals startY fonts).2) ∧
    (∀ (invoice : InvoiceData) (bank : Bank) (startY : ℚ) (fonts : Fonts),
      startY < (drawBankAndRemarks invoice bank startY fonts).2) :=
  ⟨drawCompanyHeader_bottom, drawInvoiceMetaTable_bottom,
    drawPartyBlocks_bottom, drawItemsSection_bottom,
    drawAmountSummaries_bottom, drawTaxBreakup_bottom,
    drawBankAndRemarks_bottom⟩

/-! ### Border counting for the tax breakup table (C7) -/

/-- Outer-rectangle instruction. -/
def Instr.isRect : Instr → Bool
  | .rect _ _ _ _ => true
  | _ => false

/-- A horizontal line instruction (equal y endpoints). -/
def Instr.isHorizLine : Instr → Bool
  | .line _ y1 _ y2 => y1 == y2
  | _ => false

/-- A vertical line instruction (equal x endpoints). -/
def Instr.isVertLine : Instr → Bool
  | .line x1 _ x2 _ => x1 == x2
  | _ => false

/-- The y coordinate of a line instruction (for horizontal lines). -/
def Instr.lineY : Instr → ℚ
  | .line _ y1 _ _ => y1
  | _ => 0

lemma filterInstr_map_nil {α : Type} (p : Instr → Bool) (f : α → Instr)
    (h : ∀ a, p (f a) = false) (l : List α) : (l.map f).filter p = [] := by
  induction l with
  | nil => rfl
  | cons a t ih => simp [h, ih]

lemma filterInstr_map_all {α : Type} (p : Instr → Bool) (f : α → Instr)
    (h : ∀ a, p (f a) = true) (l : List α) : (l.map f).filter p = l.map f := by
  induction l with
  | nil => rfl
  | cons a t ih => simp [h, ih]

lemma filter_isHoriz_map_text {α : Type} (f1 : α → List Char)
    (f2 f3 f4 : α → ℚ) (f5 : α → Bool) (l : List α) :
    (l.map fun a => Instr.text (f1 a) (f2 a) (f3 a) (f4 a) (f5 a)).filter
      Instr.isHorizLine = [] :=
  filterInstr_map_nil _ _ (fun _ => rfl) l

lemma filter_isVert_map_text {α : Type} (f1 : α → List Char)
    (f2 f3 f4 : α → ℚ) (f5 : α → Bool) (l : List α) :
    (l.map fun a => Instr.text (f1 a) (f2 a) (f3 a) (f4 a) (f5 a)).filter
      Instr.isVertLine = [] :=
  filterInstr_map_nil _ _ (fun _ => rfl) l

lemma filter_isRect_map_text {α : Type} (f1 : α → List Char)
    (f2 f3 f4 : α → ℚ) (f5 : α → Bool) (l : List α) :
    (l.map fun a => Instr.text (f1 a) (f2 a) (f3 a) (f4 a) (f5 a)).filter
      Instr.isRect = [] :=
  filterInstr_map_nil _ _ (fun _ => rfl) l

lemma filter_isRect_map_line {α : Type} (g1 g2 g3 g4 : α → ℚ) (l : List α) :
    (l.map fun a => Instr.line (g1 a) (g2 a) (g3 a) (g4 a)).filter
      Instr.isRect = [] :=
  filterInstr_map_nil _ _ (fun _ => rfl) l

lemma filter_isHoriz_map_line {α : Type} (g1 g3 : α → ℚ) (y1 y2 : ℚ)
    (h : (y1 == y2) = false) (l : List α) :
    (l.map fun a => Instr.line (g1 a) y1 (g3 a) y2).filter
      Instr.isHorizLine = [] :=
  filterInstr_map_nil _ _ (fun _ => h) l

lemma filter_isVert_map_line_all {α : Type} (g : α → ℚ) (y1 y2 : ℚ)
    (l : List α) :
    (l.map fun a => Instr.line (g a) y1 (g a) y2).filter Instr.isVertLine =
      l.map fun a => Instr.line (g a) y1 (g a) y2 := by
  apply filterInstr_map_all
  intro a
  show ((g a) == (g a)) = true
  exact beq_self_eq_true _

lemma beq_sub_shift_false (t c : ℚ) (hc : c ≠ 0) :
    ((A4_HEIGHT - t == A4_HEIGHT - (t + c)) = false) := by
  rw [beq_eq_false_iff_ne]
  intro h
  apply hc
  linarith

lemma beq_add_shift_false (x c : ℚ) (hc : c ≠ 0) : ((x == x + c) = false) := by
  rw [beq_eq_false_iff_ne]
  intro h
  apply hc
  linarith [h]

/-- C7: for the 3-row tax breakup table the renderer emits exactly one
outer rectangle, exactly `rows-1 = 2` internal horizontal separators and
exactly `columns-1 = 6` internal vertical separators, and no horizontal
separator lies on the table's top edge (`A4_HEIGHT - startY`) or bottom
edge (`A4_HEIGHT - (startY + 24*3)`), so no edge is drawn twice. -/
theorem taxBreakup_borders (invoice : InvoiceData) (totals : Totals)
    (startY : ℚ) (fonts : Fonts) :
    ((drawTaxBreakup invoice totals startY fonts).1.filter Instr.isRect).length = 1 ∧
    ((drawTaxBreakup invoice totals startY fonts).1.filter Instr.isHorizLine).length = 2 ∧
    ((drawTaxBreakup invoice totals startY fonts).1.filter Instr.isVertLine).length = 6 ∧
    ∀ i ∈ (drawTaxBreakup invoice totals startY fonts).1, i.isHorizLine = true →
      Instr.lineY i ≠ A4_HEIGHT - startY ∧
      Instr.lineY i ≠ A4_HEIGHT - (startY + 24 * 3) := by
  have hfold : List.foldl (fun sum v => sum + v) (0 : ℚ)
      [70, 110, 70, 70, 70, 70, 75] = 535 := by
    norm_num [List.foldl]
  have hv3 : ((A4_HEIGHT - startY == A4_HEIGHT - (startY + 24 * 3)) = false) :=
    beq_sub_shift_false _ _ (by norm_num)
  have hw535 : ((MARGIN == MARGIN + 535) = false) :=
    beq_add_shift_false _ _ (by norm_num)
  have hfilter : (drawTaxBreakup invoice totals startY fonts).1.filter
      Instr.isHorizLine =
      [Instr.line MARGIN (A4_HEIGHT - (startY + 24)) (MARGIN + 535)
        (A4_HEIGHT - (startY + 24)),
       Instr.line MARGIN (A4_HEIGHT - (startY + 24 * 2)) (MARGIN + 535)
        (A4_HEIGHT - (startY + 24 * 2))] := by
    simp only [drawTaxBreakup, hfold, List.filter_append, List.filter_cons,
      List.filter_nil, Instr.isHorizLine, beq_self_eq_true, hv3, hw535,
      if_true, if_false, List.append_nil, List.nil_append,
      Bool.false_eq_true, ite_false, ite_true]
    rw [filter_isHoriz_map_line _ _ _ _ hv3, filter_isHoriz_map_text,
      filter_isHoriz_map_text]
    simp
  refine ⟨?_, ?_, ?_, ?_⟩
  · simp only [drawTaxBreakup, hfold, List.filter_append, List.filter_cons,
      List.filter_nil, Instr.isRect, if_true, if_false,
      Bool.false_eq_true, ite_false, ite_true, List.append_nil,
      List.nil_append, List.length_cons, List.length_nil]
    rw [filter_isRect_map_line, filter_isRect_map_text, filter_isRect_map_text]
    simp
  · rw [hfilter]
    rfl
  · simp only [drawTaxBreakup, hfold, List.filter_append, List.filter_cons,
      List.filter_nil, Instr.isVertLine, beq_self_eq_true, hw535,
      if_true, if_false,
      Bool.false_eq_true, ite_false, ite_true, List.append_nil,
      List.nil_append, List.length_append, List.length_map, List.length_range,
      List.length_cons, List.length_nil]
    rw [filter_isVert_map_line_all
        (fun i => (columnPositions MARGIN [70, 110, 70, 70, 70, 70, 75]).getD (i + 1) 0)
        (A4_HEIGHT - startY) (A4_HEIGHT - (startY + 24 * 3)) (List.range 6),
      filter_isVert_map_text, filter_isVert_map_text]
    simp
  · intro i hi hhl
    have hm : i ∈ (drawTaxBreakup invoice totals startY fonts).1.filter
        Instr.isHorizLine := List.mem_filter.2 ⟨hi, hhl⟩
    rw [hfilter] at hm
    rcases List.mem_cons.1 hm with he | hm2
    · subst he
      constructor
      · show A4_HEIGHT - (startY + 24) ≠ A4_HEIGHT - startY
        intro h
        linarith
      · show A4_HEIGHT - (startY + 24) ≠ A4_HEIGHT - (startY + 24 * 3)
        intro h
        linarith
    · rcases List.mem_cons.1 hm2 with he | hm3
      · subst he
        constructor
        · show A4_HEIGHT - (startY + 24 * 2) ≠ A4_HEIGHT - startY
          intro h
          linarith
        · show A4_HEIGHT - (startY + 24 * 2) ≠ A4_HEIGHT - (startY + 24 * 3)
          intro h
          linarith
      · cases hm3

/-! ### The items section renders only the first line item (C1) -/

def c1ItemA : LineItem :=
  { description := "Monthly Payment".data, quantity := 1, rate := 2,
    unit := "Nos.".data }

def c1ItemB : LineItem :=
  { description := "Extra line item".data, quantity := 0, rate := 5,
    unit := "Nos.".data }

/-- A one-item invoice. -/
def c1InvoiceOne : InvoiceData := { blankInvoice with items := [c1ItemA] }

/-- The same invoice with a second line item appended. -/
def c1InvoiceTwo : InvoiceData :=
  { blankInvoice with items := [c1ItemA, c1ItemB] }

/-- A concrete font set (constant zero measure). -/
def zeroFonts : Fonts := { normal := fun _ _ => 0, bold := fun _ _ => 0 }

/-- `drawItemsSection` reads the invoice only through `items[0]` (with the
source's default record) and the invoice-level `hsn`. -/
lemma drawItemsSection_congr (inv1 inv2 : InvoiceData) (totals : Totals)
    (startY : ℚ) (fonts : Fonts)
    (h1 : inv1.items.headD
        { description := [], quantity := 0, rate := 0, unit := [] } =
      inv2.items.headD
        { description := [], quantity := 0, rate := 0, unit := [] })
    (h2 : inv1.hsn = inv2.hsn) :
    drawItemsSection inv1 totals startY fonts =
      drawItemsSection inv2 totals startY fonts := by
  simp only [drawItemsSection, h1, h2]

lemma c1_totals_eq : computeTotals c1InvoiceTwo = computeTotals c1InvoiceOne := by
  simp [computeTotals, c1InvoiceOne, c1InvoiceTwo, c1ItemA, c1ItemB,
    blankInvoice, effCgst, effSgst]

/-- C1: the items-table composer does not emit one detail block per line
item: it renders `items[0]` only (source line 578, serial number
hard-coded `'1'`), so appending a second line item (here one with
quantity 0, leaving the totals unchanged) produces an items-table
instruction sequence identical to the one-item invoice's — two invoices
that differ in items beyond the first render the same items table. -/
theorem itemsSection_first_item_only :
    c1InvoiceOne.items = [c1ItemA] ∧
    c1InvoiceTwo.items = [c1ItemA, c1ItemB] ∧
    drawItemsSection c1InvoiceTwo (computeTotals c1InvoiceTwo) 300 zeroFonts =
      drawItemsSection c1InvoiceOne (computeTotals c1InvoiceOne) 300 zeroFonts := by
  refine ⟨rfl, rfl, ?_⟩
  rw [c1_totals_eq]
  exact drawItemsSection_congr _ _ _ _ _ rfl rfl

/-! ### Claim theorems for totals -/

lemma scenario_effRates : effCgst scenarioInvoice = 0.09 ∧
    effSgst scenarioInvoice = 0.09 := by
  constructor <;> rfl

lemma scenario_baseAmount : (computeTotals scenarioInvoice).baseAmount = 3033.89 := by
  simp [computeTotals, scenarioInvoice, blankInvoice]

lemma scenario_cgstAmount : (computeTotals scenarioInvoice).cgstAmount = 273.0501 := by
  simp [computeTotals, scenarioInvoice, blankInvoice, effCgst]
  norm_num

lemma scenario_sgstAmount : (computeTotals scenarioInvoice).sgstAmount = 273.0501 := by
  simp [computeTotals, scenarioInvoice, blankInvoice, effSgst]
  norm_num

lemma scenario_taxTotal : (computeTotals scenarioInvoice).taxTotal = 546.1002 := by
  simp [computeTotals, scenarioInvoice, blankInvoice, effCgst, effSgst]
  norm_num

lemma scenario_grandTotal : (computeTotals scenarioInvoice).grandTotal = 3580.0002 := by
  simp [computeTotals, scenarioInvoice, blankInvoice, effCgst, effSgst]
  norm_num

lemma ratToFixed_scenario_grand : ratToFixed 2 (3580.0002 : ℚ) = "3580.00".data := by
  have h0 : ¬ ((3580.0002 : ℚ) * (10 : ℚ) ^ (2 : ℕ) < 0) := by norm_num
  have hfl : ⌊(3580.0002 : ℚ) * (10 : ℚ) ^ (2 : ℕ) + 1/2⌋ = (358000 : ℤ) := by
    norm_num [Int.floor_eq_iff]
  simp only [ratToFixed]
  rw [if_neg h0, hfl]
  decide

lemma scenario_currency :
    formatCurrency (computeTotals scenarioInvoice).grandTotal = "Rs 3580.00".data := by
  rw [scenario_grandTotal]
  simp only [formatCurrency, ratToFixed_scenario_grand]
  decide

/-- C2, counterexample: on the single-item scenario input (quantity 1,
rate 3033.89, cgst = sgst = 0.09, roundOff = 0.01) `computeTotals` does
NOT return the figures the claim states: `cgstAmount` is not 272.8501,
`grandTotal` is not 3580.4403, and the grand-total cell text (the
`formatCurrency(totals.grandTotal)` string of source line 668) is not
`Rs 3580.44`. -/
theorem scenario_totals_refuted :
    (computeTotals scenarioInvoice).cgstAmount ≠ 272.8501 ∧
    (computeTotals scenarioInvoice).sgstAmount ≠ 272.8501 ∧
    (computeTotals scenarioInvoice).taxTotal ≠ 545.7002 ∧
    (computeTotals scenarioInvoice).grandTotal ≠ 3580.4403 ∧
    formatCurrency (computeTotals scenarioInvoice).grandTotal ≠ "Rs 3580.44".data := by
  refine ⟨?_, ?_, ?_, ?_, ?_⟩
  · rw [scenario_cgstAmount]; norm_num
  · rw [scenario_sgstAmount]; norm_num
  · rw [scenario_taxTotal]; norm_num
  · rw [scenario_grandTotal]; norm_num
  · rw [scenario_currency]; decide

/-- C2, amended: on the single-item scenario input `computeTotals` returns
baseAmount = 3033.89, cgstAmount = sgstAmount = 273.0501,
taxTotal = 546.1002, grandTotal = 3580.0002, and the rendered grand-total
cell text (`formatCurrency(totals.grandTotal)`, source line 668) is
`Rs 3580.00`. -/
theorem scenario_totals :
    (computeTotals scenarioInvoice).baseAmount = 3033.89 ∧
    (computeTotals scenarioInvoice).cgstAmount = 273.0501 ∧
    (computeTotals scenarioInvoice).sgstAmount = 273.0501 ∧
    (computeTotals scenarioInvoice).taxTotal = 546.1002 ∧
    (computeTotals scenarioInvoice).grandTotal = 3580.0002 ∧
    formatCurrency (computeTotals scenarioInvoice).grandTotal = "Rs 3580.00".data :=
  ⟨scenario_baseAmount, scenario_cgstAmount, scenario_sgstAmount,
    scenario_taxTotal, scenario_grandTotal, scenario_currency⟩

/-- C3: for every invoice with non-negative item quantities and rates and
non-negative effective cgst/sgst rates (roundOff arbitrary and signed),
the totals satisfy
`grandTotal = baseAmount + cgstAmount + sgstAmount + roundOff` exactly,
and hence also after rounding to the 2 decimal places used by the
currency format. -/
theorem computeTotals_identity (invoice : InvoiceData)
    (hitems : ∀ item ∈ invoice.items, 0 ≤ item.quantity ∧ 0 ≤ item.rate)
    (hcgst : 0 ≤ effCgst invoice) (hsgst : 0 ≤ effSgst invoice) :
    (computeTotals invoice).grandTotal =
      (computeTotals invoice).baseAmount + (computeTotals invoice).cgstAmount +
        (computeTotals invoice).sgstAmount + (computeTotals invoice).roundOff ∧
    ratToFixed 2 (computeTotals invoice).grandTotal =
      ratToFixed 2 ((computeTotals invoice).baseAmount +
        (computeTotals invoice).cgstAmount + (computeTotals invoice).sgstAmount +
        (computeTotals invoice).roundOff) := by
  have h : (computeTotals invoice).grandTotal =
      (computeTotals invoice).baseAmount + (computeTotals invoice).cgstAmount +
        (computeTotals invoice).sgstAmount + (computeTotals invoice).roundOff := by
    simp only [computeTotals]
    ring
  exact ⟨h, by rw [h]⟩

/-- Witness for C3 at the scenario input. -/
theorem computeTotals_identity_witness :
    (∀ item ∈ scenarioInvoice.items, 0 ≤ item.quantity ∧ 0 ≤ item.rate) ∧
    0 ≤ effCgst scenarioInvoice ∧ 0 ≤ effSgst scenarioInvoice ∧
    (computeTotals scenarioInvoice).grandTotal =
      (computeTotals scenarioInvoice).baseAmount +
        (computeTotals scenarioInvoice).cgstAmount +
        (computeTotals scenarioInvoice).sgstAmount +
        (computeTotals scenarioInvoice).roundOff := by
  have h1 : ∀ item ∈ scenarioInvoice.items, 0 ≤ item.quantity ∧ 0 ≤ item.rate := by
    intro item hmem
    simp only [scenarioInvoice, blankInvoice, List.mem_singleton] at hmem
    subst hmem
    norm_num
  have h2 : 0 ≤ effCgst scenarioInvoice := by rw [scenario_effRates.1]; norm_num
  have h3 : 0 ≤ effSgst scenarioInvoice := by rw [scenario_effRates.2]; norm_num
  exact ⟨h1, h2, h3, (computeTotals_identity scenarioInvoice h1 h2 h3).1⟩

/-- C9: an invoice whose `taxRates` is absent, or present with neither a
`cgst` nor an `sgst` entry, is totalled with both rates zero and no
error: cgstAmount = sgstAmount = taxTotal = 0 and
grandTotal = baseAmount + roundOff. -/
theorem computeTotals_missing_taxRates (invoice : InvoiceData)
    (h : invoice.taxRates = none ∨
      invoice.taxRates = some { cgst := none, sgst := none }) :
    (computeTotals invoice).cgstAmount = 0 ∧
    (computeTotals invoice).sgstAmount = 0 ∧
    (computeTotals invoice).taxTotal = 0 ∧
    (computeTotals invoice).grandTotal =
      (computeTotals invoice).baseAmount + invoice.roundOff.getD 0 := by
  have hc : effCgst invoice = 0 := by
    rcases h with h | h <;> simp [effCgst, h]
  have hs : effSgst invoice = 0 := by
    rcases h with h | h <;> simp [effSgst, h]
  refine ⟨?_, ?_, ?_, ?_⟩ <;> simp [computeTotals, hc, hs]

/-- Witness for C9 at the blank invoice (whose `taxRates` is absent). -/
theorem computeTotals_missing_taxRates_witness :
    (blankInvoice.taxRates = none ∨
      blankInvoice.taxRates = some { cgst := none, sgst := none }) ∧
    ((computeTotals blankInvoice).cgstAmount = 0 ∧
     (computeTotals blankInvoice).sgstAmount = 0 ∧
     (computeTotals blankInvoice).taxTotal = 0 ∧
     (computeTotals blankInvoice).grandTotal =
       (computeTotals blankInvoice).baseAmount + blankInvoice.roundOff.getD 0) :=
  ⟨Or.inl rfl, computeTotals_missing_taxRates blankInvoice (Or.inl rfl)⟩

/-- C10: an invoice with an empty items list is totalled without failing:
baseAmount = cgstAmount = sgstAmount = taxTotal = 0 and grandTotal is the
round-off (0 when absent). -/
theorem computeTotals_empty_items (invoice : InvoiceData)
    (h : invoice.items = []) :
    (computeTotals invoice).baseAmount = 0 ∧
    (computeTotals invoice).cgstAmount = 0 ∧
    (computeTotals invoice).sgstAmount = 0 ∧
    (computeTotals invoice).taxTotal = 0 ∧
    (computeTotals invoice).grandTotal = invoice.roundOff.getD 0 := by
  refine ⟨?_, ?_, ?_, ?_, ?_⟩ <;> simp [computeTotals, h]

/-- Witness for C10 at the blank invoice (whose items list is empty). -/
theorem computeTotals_empty_items_witness :
    blankInvoice.items = [] ∧
    ((computeTotals blankInvoice).baseAmount = 0 ∧
     (computeTotals blankInvoice).cgstAmount = 0 ∧
     (computeTotals blankInvoice).sgstAmount = 0 ∧
     (computeTotals blankInvoice).taxTotal = 0 ∧
     (computeTotals blankInvoice).grandTotal = blankInvoice.roundOff.getD 0) :=
  ⟨rfl, computeTotals_empty_items blankInvoice rfl⟩

end Invoice
